import Mathlib

/-!
Shallow embedding of the tadolocalcontrol schedule store
(src/schedule_storage.py, class OptimizedScheduleStorage) and of the
consolidation compiler (src/smart_automation_manager.py, class
SmartAutomationManager), together with theorems settling the frozen claims
about them.

Modelling conventions:
* The SQLite database is modelled as explicit lists of rows (one list per
  table).  Timestamps and the free-form metadata column are not modelled:
  no claim mentions them.
* Python dictionaries with optional keys are modelled as structures with
  Option fields; dict.get with a default becomes Option.getD.
* Temperatures are dynamically typed in the source (float or string), so
  they are modelled by the sum type TempVal; rational numbers stand in for
  Python floats (every claim only compares, defaults or passes them
  through, none does float arithmetic).  A temperature key may also be
  present while holding Python None — which .get does NOT replace by its
  default — so temperature fields of input dicts are Option (Option
  TempVal): outer Option for key presence, inner for the None value.
* The connection in delete_schedule never issues PRAGMA foreign_keys = ON
  and sqlite leaves foreign-key enforcement off by default, so the
  ON DELETE CASCADE clauses of the child tables do not fire at runtime;
  delete_schedule is therefore modelled as removing the schedules row only.
-/

namespace TadoLocal

/-- Dynamically typed temperature value: a Python float (modelled as a
rational) or a string such as "off" or "OFF". -/
inductive TempVal where
  | num (q : ℚ)
  | str (s : String)
  deriving DecidableEq, Repr

/-- Models str.lower() on one character (ASCII; every string the code
lowercases — day abbreviations and the "off" marker — is ASCII). -/
def pyLowerChar (c : Char) : Char :=
  if 'A' ≤ c ∧ c ≤ 'Z' then Char.ofNat (c.toNat + 32) else c

/-- Models Python str.lower() for ASCII strings. -/
def pyLower (s : String) : String := ⟨s.data.map pyLowerChar⟩

/-- Models the Python test str(temperature).lower() == \x27off\x27: true exactly
for the case-insensitive string "off" (str of a float never reads "off"). -/
def TempVal.isOffStr : TempVal → Bool
  | .num _ => false
  | .str s => pyLower s == "off"

/-- Models str(temperature).lower() == \x27off\x27 for a Python value that may
be None: str(None) is "None", never "off". -/
def pyTempIsOffStr : Option TempVal → Bool
  | none => false
  | some t => t.isOffStr

/-- Models Python str.split(sep) for a single-character separator,
operating on the character list of the string. -/
def splitOnChar (sep : Char) : List Char → List (List Char)
  | [] => [[]]
  | c :: cs =>
    match splitOnChar sep cs with
    | [] => [[]]
    | h :: t => if c = sep then [] :: h :: t else (c :: h) :: t

/-- Models Python int(...) on a non-empty string of decimal digits; any
other input makes int() raise, which the caller catches (returning none
here). -/
def parseDigits? (cs : List Char) : Option Nat :=
  if cs.isEmpty then none
  else
    cs.foldl
      (fun acc c =>
        match acc with
        | none => none
        | some n => if '0' ≤ c ∧ c ≤ '9' then some (n * 10 + (c.toNat - 48)) else none)
      (some 0)

/-- Embedding of OptimizedScheduleStorage._time_str_to_minutes: split on
":", parse both parts as integers, return hours*60+minutes; any failure
(wrong number of parts, non-digits) is caught and yields 0. -/
def timeStrToMinutes (s : String) : Nat :=
  match (splitOnChar ':' s.data).map parseDigits? with
  | [some hours, some minutes] => hours * 60 + minutes
  | _ => 0

/-- Models the Python format f"\x7bn:02d\x7d" for a non-negative integer. -/
def twoPad (n : Nat) : String :=
  if n < 10 then "0" ++ toString n else toString n

/-- Embedding of OptimizedScheduleStorage._minutes_to_time_str. -/
def minutesToTimeStr (minutes : Nat) : String :=
  twoPad (minutes / 60) ++ ":" ++ twoPad (minutes % 60)

/-- Row of the schedules table (timestamps and metadata omitted, see the
file header). -/
structure ScheduleRow where
  id : String
  name : String
  active : Bool
  deriving DecidableEq, Repr

/-- Row of the schedule_zones table (the AUTOINCREMENT surrogate key is
not modelled). -/
structure ZoneRow where
  schedule_id : String
  zone_id : String
  deriving DecidableEq, Repr

/-- Row of the schedule_rooms table. -/
structure RoomRow where
  schedule_id : String
  room_name : String
  area_id : Option String
  deriving DecidableEq, Repr

/-- Row of the schedule_entries table; temperature REAL is nullable and
sqlite is dynamically typed, hence Option TempVal. -/
structure EntryRow where
  schedule_id : String
  day_of_week : Nat
  time_minutes : Nat
  temperature : Option TempVal
  action : String
  deriving DecidableEq, Repr

/-- The whole database: one list of rows per table. -/
structure Store where
  schedules : List ScheduleRow
  schedule_zones : List ZoneRow
  schedule_rooms : List RoomRow
  schedule_entries : List EntryRow
  deriving DecidableEq, Repr

/-- The store holding no rows at all (a freshly initialised database). -/
def Store.empty : Store := ⟨[], [], [], []⟩

/-- One element of the entries argument of create_schedule: a Python dict
read with .get.  For temperature the outer Option is key presence (only
an absent key makes .get return the 20.0 default) and the inner Option is
the value itself, which may be Python None — a present None is not
replaced by the default and flows into the stored row as NULL.  The time
and action keys are modelled as absent-or-value only: no claim depends on
an explicit None under those keys. -/
structure EntryInput where
  time : Option String
  temperature : Option (Option TempVal)
  action : Option String
  deriving DecidableEq, Repr

/-- Embedding of the day_mapping dict lookup in create_schedule:
day_mapping.get(day_abbr.lower()). -/
def dayMapping (day_abbr : String) : Option Nat :=
  match pyLower day_abbr with
  | "mon" => some 0
  | "tue" => some 1
  | "wed" => some 2
  | "thu" => some 3
  | "fri" => some 4
  | "sat" => some 5
  | "sun" => some 6
  | _ => none

/-- Splits a character list at the first occurrence of sep, if any. -/
def splitFirstAux (sep : Char) : List Char → Option (List Char × List Char)
  | [] => none
  | c :: cs =>
    if c = sep then some ([], cs)
    else
      match splitFirstAux sep cs with
      | none => none
      | some (a, b) => some (c :: a, b)

/-- Models the room-reference parsing in create_schedule: if the reference
contains a bar, room_name, area_id = room_name.split(bar, 1). -/
def splitRoomRef (ref : String) : String × Option String :=
  match splitFirstAux '|' ref.data with
  | none => (ref, none)
  | some (a, b) => (⟨a⟩, some ⟨b⟩)

/-- Embedding of the per-entry row construction inside create_schedule:
defaults time to "08:00", temperature to 20.0 (only when the key is
absent), action to "heat", and when the temperature is the
case-insensitive string "off" forces action "off" and a null stored
temperature; otherwise the temperature value — including a present
Python None, stored as NULL — and the action are stored unchanged. -/
def mkEntryRow (schedule_id : String) (day_num : Nat) (e : EntryInput) : EntryRow :=
  let time_str := e.time.getD "08:00"
  let time_minutes := timeStrToMinutes time_str
  let temperature := e.temperature.getD (some (.num 20))
  let action := e.action.getD "heat"
  if pyTempIsOffStr temperature then
    ⟨schedule_id, day_num, time_minutes, none, "off"⟩
  else
    ⟨schedule_id, day_num, time_minutes, temperature, action⟩

/-- The entry rows the insertion loop of create_schedule produces: the
cross product of the recognised days (unrecognised day abbreviations are
skipped by the continue statement) with the entries, day-major as in the
nested loops. -/
def newEntryRows (schedule_id : String) (entries : List EntryInput)
    (days : List String) : List EntryRow :=
  days.flatMap fun day_abbr =>
    match dayMapping day_abbr with
    | none => []
    | some day_num => entries.map (mkEntryRow schedule_id day_num)

/-- Models INSERT OR REPLACE INTO schedules: the row with the same primary
key is replaced in place, otherwise the new row is appended. -/
def upsertSchedule (rows : List ScheduleRow) (r : ScheduleRow) : List ScheduleRow :=
  if rows.any fun s => s.id == r.id then
    rows.map fun s => if s.id == r.id then r else s
  else rows ++ [r]

/-- Embedding of OptimizedScheduleStorage.create_schedule: upsert the
schedules row, delete all child rows of this schedule id, then reinsert
zones, rooms and the cross product of days and entries (unrecognised day
abbreviations are skipped by the continue statement). -/
def create_schedule (st : Store) (schedule_id name : String)
    (zones rooms : List String) (entries : List EntryInput)
    (days : List String) (active : Bool) : Store :=
  { schedules := upsertSchedule st.schedules ⟨schedule_id, name, active⟩
    schedule_zones :=
      (st.schedule_zones.filter fun z => z.schedule_id != schedule_id) ++
        zones.map fun zone_id => ⟨schedule_id, zone_id⟩
    schedule_rooms :=
      (st.schedule_rooms.filter fun r => r.schedule_id != schedule_id) ++
        rooms.map fun ref =>
          let p := splitRoomRef ref
          ⟨schedule_id, p.1, p.2⟩
    schedule_entries :=
      (st.schedule_entries.filter fun e => e.schedule_id != schedule_id) ++
        newEntryRows schedule_id entries days }

/-- Embedding of OptimizedScheduleStorage.delete_schedule.  Only the
schedules row goes away (see the file header: foreign-key enforcement is
off on this connection, so ON DELETE CASCADE does not fire); the boolean
is cursor.rowcount > 0. -/
def delete_schedule (st : Store) (schedule_id : String) : Store × Bool :=
  ({ st with schedules := st.schedules.filter fun s => s.id != schedule_id },
   st.schedules.any fun s => s.id == schedule_id)

/-- One element of the periods list returned by get_schedule; a null
stored temperature is rendered as the string "off". -/
structure EntryOut where
  time : String
  temperature : TempVal
  action : String
  deriving DecidableEq, Repr

/-- The dictionary returned by get_schedule (timestamps and merged
metadata omitted, see the file header). -/
structure ScheduleOut where
  id : String
  name : String
  active : Bool
  zones : List String
  rooms : List String
  days : List String
  periods : List EntryOut
  deriving DecidableEq, Repr

/-- The day_names list of get_schedule. -/
def dayNames : List String := ["mon", "tue", "wed", "thu", "fri", "sat", "sun"]

/-- Ordering used to model ORDER BY day_of_week, time_minutes. -/
def entryRowLe (a b : EntryRow) : Prop :=
  a.day_of_week < b.day_of_week ∨
    (a.day_of_week = b.day_of_week ∧ a.time_minutes ≤ b.time_minutes)

instance : DecidableRel entryRowLe := fun a b => by
  unfold entryRowLe; infer_instance

/-- Embedding of OptimizedScheduleStorage.get_schedule. -/
def get_schedule (st : Store) (schedule_id : String) : Option ScheduleOut :=
  match st.schedules.find? fun s => s.id == schedule_id with
  | none => none
  | some srow =>
    let zones :=
      (st.schedule_zones.filter fun z => z.schedule_id == schedule_id).map (·.zone_id)
    let rooms :=
      (st.schedule_rooms.filter fun r => r.schedule_id == schedule_id).map fun r =>
        match r.area_id with
        | some a => if a = "" then r.room_name else r.room_name ++ "|" ++ a
        | none => r.room_name
    let sorted :=
      (st.schedule_entries.filter fun e => e.schedule_id == schedule_id).insertionSort
        entryRowLe
    let days := sorted.foldl
      (fun acc row =>
        let dn := dayNames.getD row.day_of_week ""
        if acc.contains dn then acc else acc ++ [dn])
      []
    let periods := sorted.map fun row =>
      EntryOut.mk (minutesToTimeStr row.time_minutes) (row.temperature.getD (.str "off"))
        row.action
    some ⟨srow.id, srow.name, srow.active, zones, rooms, days, periods⟩

/-- Embedding of get_active_schedules_for_zone: the DISTINCT join of
schedule_zones with active schedules, each id then loaded through
get_schedule and kept when found. -/
def get_active_schedules_for_zone (st : Store) (zone_id : String) : List ScheduleOut :=
  let ids :=
    ((st.schedule_zones.filter fun z =>
        z.zone_id == zone_id &&
          st.schedules.any fun s => s.id == z.schedule_id && s.active).map
      (·.schedule_id)).dedup
  ids.filterMap (get_schedule st)

/-- Embedding of get_active_schedules_for_room. -/
def get_active_schedules_for_room (st : Store) (room_name : String) : List ScheduleOut :=
  let ids :=
    ((st.schedule_rooms.filter fun r =>
        r.room_name == room_name &&
          st.schedules.any fun s => s.id == r.schedule_id && s.active).map
      (·.schedule_id)).dedup
  ids.filterMap (get_schedule st)

/-- Embedding of get_zones_with_schedules: DISTINCT zone ids whose join
partner in schedules is active. -/
def get_zones_with_schedules (st : Store) : List String :=
  ((st.schedule_zones.filter fun z =>
      st.schedules.any fun s => s.id == z.schedule_id && s.active).map
    (·.zone_id)).dedup

/-- The dictionary returned by get_schedule_state_at_time. -/
structure StateResult where
  temperature : Option TempVal
  action : String
  schedule_name : String
  deriving DecidableEq, Repr

/-- The joined row set of the query in get_schedule_state_at_time:
schedule_entries joined with schedule_zones (on the zone) and with the
active schedules row, restricted to entries of the requested weekday at
or before the requested minute; each row carries the schedule name. -/
def qualifyingRows (st : Store) (zone_id : String) (day_of_week : Nat)
    (time_minutes : Nat) : List (EntryRow × String) :=
  st.schedule_entries.filterMap fun e =>
    if e.day_of_week == day_of_week && decide (e.time_minutes ≤ time_minutes) &&
        (st.schedule_zones.any fun z => z.schedule_id == e.schedule_id && z.zone_id == zone_id)
    then
      match st.schedules.find? fun s => s.id == e.schedule_id with
      | some s => if s.active then some (e, s.name) else none
      | none => none
    else none

/-- Models ORDER BY time_minutes DESC LIMIT 1: the row with the greatest
time_minutes; on ties (which the SQL leaves unspecified) the first row in
table order is kept. -/
def pickLatest : List (EntryRow × String) → Option (EntryRow × String)
  | [] => none
  | x :: xs =>
    match pickLatest xs with
    | none => some x
    | some y => if x.1.time_minutes < y.1.time_minutes then some y else some x

/-- Embedding of get_schedule_state_at_time: the qualifying row with the
greatest time_minutes, or none when no row qualifies. -/
def get_schedule_state_at_time (st : Store) (zone_id : String) (day_of_week : Nat)
    (time_minutes : Nat) : Option StateResult :=
  match pickLatest (qualifyingRows st zone_id day_of_week time_minutes) with
  | none => none
  | some p => some ⟨p.1.temperature, p.1.action, p.2⟩

/-- One element of the periods list of a legacy schedule record; the
temperature key, as in EntryInput, distinguishes a present Python None
from an absent key. -/
structure LegacyPeriod where
  time : Option String
  start : Option String
  temperature : Option (Option TempVal)
  deriving DecidableEq, Repr

/-- A legacy flat-record schedule as read from JSON (only the keys the
importer touches). -/
structure LegacySchedule where
  id : Option String
  name : Option String
  zones : List String
  days : List String
  active : Bool
  periods : Option (List LegacyPeriod)
  entries : Option (List LegacyPeriod)
  deriving DecidableEq, Repr

/-- Embedding of _convert_legacy_periods: read periods (falling back to
entries), default time to "08:00" via time then start, default temperature
to 20.0, and derive the action from the case-insensitive "off" marker. -/
def convert_legacy_periods (legacy : LegacySchedule) : List EntryInput :=
  let periods := legacy.periods.getD (legacy.entries.getD [])
  periods.map fun period =>
    let time_str := period.time.getD (period.start.getD "08:00")
    let temperature := period.temperature.getD (some (.num 20))
    { time := some time_str
      temperature := some temperature
      action := some (if pyTempIsOffStr temperature then "off" else "heat") }

/-- Embedding of _migrate_single_schedule: bail out on a missing or empty
id or when the id already exists in the store, otherwise create the
schedule from the converted periods. -/
def migrate_single_schedule (st : Store) (legacy : LegacySchedule) : Store :=
  match legacy.id with
  | none => st
  | some schedule_id =>
    if schedule_id = "" then st
    else if (get_schedule st schedule_id).isSome then st
    else
      create_schedule st schedule_id (legacy.name.getD "Migrated Schedule")
        legacy.zones [] (convert_legacy_periods legacy) legacy.days legacy.active

/-- An entry dictionary as read by the automation builder. -/
structure EntryDictT where
  time : Option String
  start : Option String
  temperature : Option TempVal
  deriving DecidableEq, Repr

/-- A schedule dictionary as consumed by SmartAutomationManager (the
shape produced by get_schedule, but read generically with .get). -/
structure SchedDict where
  id : Option String
  name : Option String
  active : Option Bool
  days : List String
  entries : Option (List EntryDictT)
  periods : Option (List EntryDictT)
  deriving DecidableEq, Repr

/-- Models schedule.get(\x27entries\x27, schedule.get(\x27periods\x27, [])). -/
def effEntries (s : SchedDict) : List EntryDictT :=
  s.entries.getD (s.periods.getD [])

/-- Models entry.get(\x27time\x27, entry.get(\x27start\x27, \x2708:00\x27)). -/
def effTime (e : EntryDictT) : String :=
  e.time.getD (e.start.getD "08:00")

/-- Models time_str.replace(":", "_") (single-character substring). -/
def replaceColonUnderscore (s : String) : String :=
  ⟨s.data.map fun c => if c = ':' then '_' else c⟩

/-- All trigger times collected across every entry of every governing
schedule (the inner loops of _build_consolidated_automation_config before
deduplication). -/
def collectTriggerTimes (zone_schedules : List SchedDict) : List String :=
  zone_schedules.flatMap fun s => (effEntries s).map effTime

/-- Lexicographic code-point comparison of character lists (the order
Python sorted uses on strings). -/
def charListLe : List Char → List Char → Bool
  | [], _ => true
  | _ :: _, [] => false
  | a :: as, b :: bs =>
    if a < b then true else if b < a then false else charListLe as bs

/-- Boolean lexicographic order on strings. -/
def strLeB (a b : String) : Bool := charListLe a.data b.data

/-- Models sorted(set(xs)) for strings: the distinct elements in
ascending lexicographic order. -/
def sortDedup (xs : List String) : List String :=
  xs.dedup.insertionSort fun a b => strLeB a b = true

/-- Models json.dumps for a list of plain strings (no escaping needed by
the day abbreviations it is applied to). -/
def jsonDumpsList (l : List String) : String :=
  "[" ++ String.intercalate ", " (l.map fun s => "\"" ++ s ++ "\"") ++ "]"

/-- Embedding of _build_schedule_evaluation_template: one disjunct per
active schedule having both days and entries, each combining a weekday
membership test with a disjunction of exact time comparisons. -/
def buildScheduleEvaluationTemplate (zone_schedules : List SchedDict) : String :=
  let template_parts := zone_schedules.filterMap fun schedule =>
    if !(schedule.active.getD true) then none
    else if schedule.days.isEmpty || (effEntries schedule).isEmpty then none
    else
      let day_condition :=
        "now().strftime(\x27%a\x27).lower() in " ++ jsonDumpsList schedule.days
      let time_conditions := (effEntries schedule).map fun e =>
        "now().strftime(\x27%H:%M\x27) == \x27" ++ effTime e ++ "\x27"
      some ("(" ++ day_condition ++ " and (" ++
        String.intercalate " or " time_conditions ++ "))")
  if template_parts.isEmpty then "\x7b\x7b false \x7d\x7d"
  else "\x7b\x7b " ++ String.intercalate " or " template_parts ++ " \x7d\x7d"

/-- Digits of the fractional part of r/d (fuel-bounded long division,
stopping at remainder 0). -/
def fracDigitsAux : Nat → Nat → Nat → List Nat
  | 0, _, _ => []
  | _ + 1, 0, _ => []
  | fuel + 1, r, d => ((r * 10) / d) :: fracDigitsAux fuel ((r * 10) % d) d

/-- Character of a single decimal digit. -/
def digitToChar (n : Nat) : Char := Char.ofNat (48 + n)

/-- Models the Python textual rendering of a float holding the rational q
(exact for values with a terminating decimal expansion of at most 17
digits, which covers every temperature the system handles). -/
def pyFloatRepr (q : ℚ) : String :=
  let sign := if q < 0 then "-" else ""
  let m := q.num.natAbs
  let whole := m / q.den
  let r := m % q.den
  let fracs := if r = 0 then [0] else fracDigitsAux 17 r q.den
  sign ++ toString whole ++ "." ++ String.mk (fracs.map digitToChar)

/-- Models float(temperature) followed by string interpolation: a rational
renders as a float, a numeric string parses and renders back (modelled as
the string itself; the only string temperature the pipeline produces is
"off", which never reaches this branch). -/
def renderTempValueFloat : TempVal → String
  | .num q => pyFloatRepr q
  | .str s => s

/-- The constant default template of _build_target_state_template_safe. -/
def defaultTargetStateTemplate : String :=
  "\x7b\x7b \x7b\x27temperature\x27: 20, \x27action\x27: \x27heat\x27, \x27schedule_name\x27: \x27Default\x27\x7d \x7d\x7d"

/-- Embedding of the loop body of _build_target_state_template_safe: the
first active schedule with a non-empty entry list contributes a constant
dictionary template built from its first entry; everything after it is
ignored. -/
def targetStateLoop : List SchedDict → String
  | [] => defaultTargetStateTemplate
  | schedule :: rest =>
    if schedule.active.getD true then
      match effEntries schedule with
      | [] => targetStateLoop rest
      | first_entry :: _ =>
        let temperature := first_entry.temperature.getD (.num 20)
        let action := if temperature.isOffStr then "off" else "heat"
        let schedule_name := schedule.name.getD "Unnamed Schedule"
        let temp_value :=
          if temperature.isOffStr then "16" else renderTempValueFloat temperature
        "\x7b\x7b \x7b\x27temperature\x27: " ++ temp_value ++ ", \x27action\x27: \x27" ++
          action ++ "\x27, \x27schedule_name\x27: \x27" ++ schedule_name ++ "\x27\x7d \x7d\x7d"
    else targetStateLoop rest

/-- Embedding of _build_target_state_template_safe (the empty-input early
return produces the same default as the fallthrough after the loop). -/
def buildTargetStateTemplateSafe (zone_schedules : List SchedDict) : String :=
  targetStateLoop zone_schedules

/-- The away/home sub-configuration read from ha_config, with the .get
defaults already applied (enabled defaults to False, home_state to
"home"). -/
structure AwayHomeConfig where
  enabled : Bool
  entity_id : Option String
  home_state : String
  deriving DecidableEq, Repr

/-- One time trigger dictionary of the compiled automation; at_time and
trig_label model the keys "at" and "id". -/
structure TimeTrigger where
  platform : String
  at_time : String
  trig_label : String
  deriving DecidableEq, Repr

/-- A condition dictionary: either a state condition or a template
condition. -/
inductive Condition where
  | state (entity_id : String) (state : String)
  | template (value_template : String)
  deriving DecidableEq, Repr

/-- A service-call dictionary of an action sequence; target_entity models
the optional target.entity_id and data the service data map (all values
occurring here are strings). -/
structure ServiceCall where
  service : String
  target_entity : Option String
  data : List (String × String)
  deriving DecidableEq, Repr

/-- One branch of the choose step. -/
structure ChooseBranch where
  conditions : List Condition
  sequence : List ServiceCall
  deriving DecidableEq, Repr

/-- The choose step of the action body. -/
structure ChooseStep where
  choose : List ChooseBranch
  default : List ServiceCall
  deriving DecidableEq, Repr

/-- The consolidated automation artifact built by
_build_consolidated_automation_config.  The heterogeneous two-element
action list (a variables step assigning target_state, then a choose step)
is modelled by the fields target_state_template and action_choose. -/
structure AutomationConfig where
  alias_name : String
  description : String
  trigger : List TimeTrigger
  condition : List Condition
  target_state_template : String
  action_choose : ChooseStep
  mode : String
  deriving DecidableEq, Repr

/-- Models the truthiness test of away_entity_id (non-null, non-empty). -/
def awayEntityTruthy : Option String → Bool
  | none => false
  | some e => e != ""

/-- Embedding of _build_consolidated_automation_config. -/
def buildConsolidatedAutomationConfig (away : AwayHomeConfig)
    (zone_id zone_name : String) (zone_schedules : List SchedDict) : AutomationConfig :=
  let trigger_times := sortDedup (collectTriggerTimes zone_schedules)
  let triggers := trigger_times.map fun time_str =>
    TimeTrigger.mk "time" time_str ("time_" ++ replaceColonUnderscore time_str)
  let away_conditions :=
    match away.entity_id with
    | some e =>
      if away.enabled && e != "" then [Condition.state e away.home_state] else []
    | none => []
  let conditions :=
    away_conditions ++
      [Condition.template (buildScheduleEvaluationTemplate zone_schedules)]
  { alias_name := "Tado Smart Scheduler: " ++ zone_name
    description := "Consolidated smart heating schedule for " ++ zone_name ++
      " - manages " ++ toString zone_schedules.length ++ " schedules"
    trigger := triggers
    condition := conditions
    target_state_template := buildTargetStateTemplateSafe zone_schedules
    action_choose :=
      { choose := [
          { conditions :=
              [Condition.template "\x7b\x7b target_state.action == \x27off\x27 \x7d\x7d"]
            sequence := [
              { service := "climate.set_hvac_mode"
                target_entity := some zone_id
                data := [("hvac_mode", "off")] },
              { service := "logbook.log"
                target_entity := none
                data := [("name", "Tado Smart Scheduler"),
                         ("message", "Turned off heating in " ++ zone_name ++
                           " (Schedule: \x7b\x7b target_state.schedule_name \x7d\x7d)")] }] }]
        default := [
          { service := "climate.set_temperature"
            target_entity := some zone_id
            data := [("temperature", "\x7b\x7b target_state.temperature \x7d\x7d")] },
          { service := "climate.set_hvac_mode"
            target_entity := some zone_id
            data := [("hvac_mode", "heat")] },
          { service := "logbook.log"
            target_entity := none
            data := [("name", "Tado Smart Scheduler"),
                     ("message", "Set " ++ zone_name ++
                       " to \x7b\x7b target_state.temperature \x7d\x7dÂ°C (Schedule: \x7b\x7b target_state.schedule_name \x7d\x7d)")] }] }
    mode := "single" }

/-! ### Query helpers used by the claim statements -/

/-- Entry rows belonging to one schedule id. -/
def entryRowsFor (st : Store) (schedule_id : String) : List EntryRow :=
  st.schedule_entries.filter fun e => e.schedule_id == schedule_id

/-- Zone-assignment rows belonging to one schedule id. -/
def zoneRowsFor (st : Store) (schedule_id : String) : List ZoneRow :=
  st.schedule_zones.filter fun z => z.schedule_id == schedule_id

/-- Room-assignment rows belonging to one schedule id. -/
def roomRowsFor (st : Store) (schedule_id : String) : List RoomRow :=
  st.schedule_rooms.filter fun r => r.schedule_id == schedule_id

/-! ### Shared lemmas about create_schedule -/

lemma mkEntryRow_schedule_id (schedule_id : String) (dn : Nat) (e : EntryInput) :
    (mkEntryRow schedule_id dn e).schedule_id = schedule_id := by
  unfold mkEntryRow
  dsimp only
  split <;> rfl

lemma newEntryRows_schedule_id (schedule_id : String) (entries : List EntryInput)
    (days : List String) :
    ∀ r ∈ newEntryRows schedule_id entries days, r.schedule_id = schedule_id := by
  intro r hr
  simp only [newEntryRows, List.mem_flatMap] at hr
  obtain ⟨d, _, hr⟩ := hr
  cases h : dayMapping d with
  | none => rw [h] at hr; simp at hr
  | some dn =>
    rw [h] at hr
    simp only [List.mem_map] at hr
    obtain ⟨e, _, rfl⟩ := hr
    exact mkEntryRow_schedule_id _ _ _

lemma filter_eq_append_of_key {α : Type} (key : α → String) (id : String)
    (old new : List α) (hnew : ∀ x ∈ new, key x = id) :
    ((old.filter fun x => key x != id) ++ new).filter (fun x => key x == id) = new := by
  rw [List.filter_append]
  have h1 : ((old.filter fun x => key x != id).filter fun x => key x == id) = [] := by
    rw [List.filter_filter]
    apply List.filter_eq_nil_iff.mpr
    intro x _
    by_cases h : key x = id <;> simp [h]
  have h2 : (new.filter fun x => key x == id) = new := by
    apply List.filter_eq_self.mpr
    intro x hx
    simp [hnew x hx]
  rw [h1, h2, List.nil_append]

lemma filter_bne_append_of_key {α : Type} (key : α → String) (id : String)
    (old new : List α) (hnew : ∀ x ∈ new, key x = id) :
    ((old.filter fun x => key x != id) ++ new).filter (fun x => key x != id) =
      old.filter fun x => key x != id := by
  rw [List.filter_append]
  have h1 : ((old.filter fun x => key x != id).filter fun x => key x != id) =
      old.filter fun x => key x != id := by
    rw [List.filter_filter]
    apply List.filter_congr
    intro x _
    by_cases h : key x = id <;> simp [h]
  have h2 : (new.filter fun x => key x != id) = [] := by
    apply List.filter_eq_nil_iff.mpr
    intro x hx
    simp [hnew x hx]
  rw [h1, h2, List.append_nil]

lemma entryRowsFor_create (st : Store) (schedule_id name : String)
    (zones rooms : List String) (entries : List EntryInput) (days : List String)
    (active : Bool) :
    entryRowsFor (create_schedule st schedule_id name zones rooms entries days active)
      schedule_id = newEntryRows schedule_id entries days := by
  unfold entryRowsFor create_schedule
  exact filter_eq_append_of_key EntryRow.schedule_id schedule_id _ _
    (newEntryRows_schedule_id schedule_id entries days)

lemma zoneRowsFor_create (st : Store) (schedule_id name : String)
    (zones rooms : List String) (entries : List EntryInput) (days : List String)
    (active : Bool) :
    zoneRowsFor (create_schedule st schedule_id name zones rooms entries days active)
      schedule_id = zones.map fun zone_id => ⟨schedule_id, zone_id⟩ := by
  unfold zoneRowsFor create_schedule
  apply filter_eq_append_of_key ZoneRow.schedule_id
  intro x hx
  simp only [List.mem_map] at hx
  obtain ⟨z, _, rfl⟩ := hx
  rfl

lemma roomRowsFor_create (st : Store) (schedule_id name : String)
    (zones rooms : List String) (entries : List EntryInput) (days : List String)
    (active : Bool) :
    roomRowsFor (create_schedule st schedule_id name zones rooms entries days active)
      schedule_id =
      rooms.map fun ref => ⟨schedule_id, (splitRoomRef ref).1, (splitRoomRef ref).2⟩ := by
  unfold roomRowsFor create_schedule
  apply filter_eq_append_of_key RoomRow.schedule_id
  intro x hx
  simp only [List.mem_map] at hx
  obtain ⟨r, _, rfl⟩ := hx
  rfl

lemma upsertSchedule_any (rows : List ScheduleRow) (r : ScheduleRow) :
    (upsertSchedule rows r).any (fun s => s.id == r.id) = true := by
  unfold upsertSchedule
  by_cases h : rows.any (fun s => s.id == r.id) = true
  · rw [if_pos h]
    rw [List.any_eq_true] at h ⊢
    obtain ⟨s, hs, hid⟩ := h
    exact ⟨r, List.mem_map.mpr ⟨s, hs, by rw [if_pos hid]⟩, by simp⟩
  · rw [if_neg h]
    simp

lemma upsertSchedule_fix (rows : List ScheduleRow) (r : ScheduleRow) :
    ∀ x ∈ upsertSchedule rows r, (if x.id == r.id then r else x) = x := by
  intro x hx
  unfold upsertSchedule at hx
  by_cases h : rows.any (fun s => s.id == r.id) = true
  · rw [if_pos h] at hx
    obtain ⟨s, _, rfl⟩ := List.mem_map.mp hx
    by_cases hid : (s.id == r.id) = true
    · rw [if_pos hid, if_pos (by simp)]
    · rw [if_neg hid, if_neg hid]
  · rw [if_neg h] at hx
    rcases List.mem_append.mp hx with hx | hx
    · have hfalse : ¬((x.id == r.id) = true) := by
        intro hc
        exact h (List.any_eq_true.mpr ⟨x, hx, hc⟩)
      rw [if_neg hfalse]
    · have : x = r := by simpa using hx
      subst this
      rw [if_pos (by simp)]

lemma upsertSchedule_of_contains (l : List ScheduleRow) (r : ScheduleRow)
    (h : l.any (fun s => s.id == r.id) = true)
    (hfix : ∀ x ∈ l, (if x.id == r.id then r else x) = x) :
    upsertSchedule l r = l := by
  unfold upsertSchedule
  rw [if_pos h]
  calc l.map (fun s => if s.id == r.id then r else s)
      = l.map id := List.map_congr_left hfix
    _ = l := List.map_id l

lemma upsertSchedule_idem (rows : List ScheduleRow) (r : ScheduleRow) :
    upsertSchedule (upsertSchedule rows r) r = upsertSchedule rows r :=
  upsertSchedule_of_contains _ r (upsertSchedule_any rows r) (upsertSchedule_fix rows r)

lemma newEntryRows_eq_filter (schedule_id : String) (entries : List EntryInput)
    (days : List String) :
    newEntryRows schedule_id entries days =
      (days.filter fun d => (dayMapping d).isSome).flatMap fun d =>
        entries.map (mkEntryRow schedule_id ((dayMapping d).getD 0)) := by
  induction days with
  | nil => rfl
  | cons d ds ih =>
    simp only [newEntryRows, List.flatMap_cons] at ih ⊢
    cases h : dayMapping d with
    | none => simp [List.filter_cons, h, ih]
    | some dn => simp [List.filter_cons, h, ih]

lemma newEntryRows_length (schedule_id : String) (entries : List EntryInput)
    (days : List String) :
    (newEntryRows schedule_id entries days).length =
      entries.length * (days.countP fun d => (dayMapping d).isSome) := by
  induction days with
  | nil => simp [newEntryRows]
  | cons d ds ih =>
    simp only [newEntryRows, List.flatMap_cons, List.length_append] at ih ⊢
    cases h : dayMapping d with
    | none => simp [h, ih, List.countP_cons]
    | some dn =>
      simp [h, ih, List.countP_cons, List.length_map]
      ring

/-! ### Claim theorems -/

/-- C6: calling create_schedule twice in succession with identical
arguments yields stored state after the second call identical to the
state after the first call — the same schedule row, zone/room assignment
rows and entry rows, with no duplicated rows. -/
theorem C6_create_or_replace_idempotent (st : Store) (schedule_id name : String)
    (zones rooms : List String) (entries : List EntryInput) (days : List String)
    (active : Bool) :
    create_schedule (create_schedule st schedule_id name zones rooms entries days active)
        schedule_id name zones rooms entries days active =
      create_schedule st schedule_id name zones rooms entries days active := by
  unfold create_schedule
  dsimp only
  simp only [Store.mk.injEq]
  refine ⟨upsertSchedule_idem _ _, ?_, ?_, ?_⟩
  · rw [filter_bne_append_of_key ZoneRow.schedule_id schedule_id _ _ ?_]
    intro x hx
    obtain ⟨z, _, rfl⟩ := List.mem_map.mp hx
    rfl
  · rw [filter_bne_append_of_key RoomRow.schedule_id schedule_id _ _ ?_]
    intro x hx
    obtain ⟨r, _, rfl⟩ := List.mem_map.mp hx
    rfl
  · rw [filter_bne_append_of_key EntryRow.schedule_id schedule_id _ _
      (newEntryRows_schedule_id schedule_id entries days)]

/-- C10: in create_schedule, day strings that are not recognised
case-insensitive abbreviations (mon..sun) are silently skipped — the
inserted entry rows are exactly those of the recognised days, their count
is N times the number of recognised day elements, and in particular the
full day name "monday" is not recognised while "tue" is. -/
theorem C10_unrecognised_days_skipped (st : Store) (schedule_id name : String)
    (zones rooms : List String) (entries : List EntryInput) (days : List String)
    (active : Bool) :
    entryRowsFor (create_schedule st schedule_id name zones rooms entries days active)
        schedule_id =
      ((days.filter fun d => (dayMapping d).isSome).flatMap fun d =>
        entries.map (mkEntryRow schedule_id ((dayMapping d).getD 0))) ∧
    (entryRowsFor (create_schedule st schedule_id name zones rooms entries days active)
        schedule_id).length =
      entries.length * (days.countP fun d => (dayMapping d).isSome) ∧
    dayMapping "monday" = none ∧ dayMapping "tue" = some 1 := by
  refine ⟨?_, ?_, by decide, by decide⟩
  · rw [entryRowsFor_create]
    exact newEntryRows_eq_filter schedule_id entries days
  · rw [entryRowsFor_create]
    exact newEntryRows_length schedule_id entries days

/-- C5 counterexample: with one entry and the single (unrecognised) day
string "monday", create_schedule stores zero entry rows, not N times n
equal to one. -/
theorem C5_counterexample :
    (entryRowsFor (create_schedule Store.empty "s1" "Schedule" [] []
        [⟨some "07:00", some (some (.num 20)), none⟩] ["monday"] true) "s1").length = 0 ∧
    (0 : Nat) ≠ 1 * 1 := by decide

/-- C5 (amended): for every call to create_schedule with N entries and a
list of n days each of which is a recognised case-insensitive weekday
abbreviation, the store afterwards holds exactly N times n entry rows for
that schedule id — one row per (entry, day) pair — and the zone, room and
entry rows for that id are exactly the ones of this call (none from
before the call remain). -/
theorem C5_cross_product (st : Store) (schedule_id name : String)
    (zones rooms : List String) (entries : List EntryInput) (days : List String)
    (active : Bool) (hdays : ∀ d ∈ days, (dayMapping d).isSome = true) :
    (entryRowsFor (create_schedule st schedule_id name zones rooms entries days active)
        schedule_id).length = entries.length * days.length ∧
    entryRowsFor (create_schedule st schedule_id name zones rooms entries days active)
        schedule_id =
      (days.flatMap fun d => entries.map (mkEntryRow schedule_id ((dayMapping d).getD 0))) ∧
    zoneRowsFor (create_schedule st schedule_id name zones rooms entries days active)
        schedule_id = (zones.map fun zone_id => ⟨schedule_id, zone_id⟩) ∧
    roomRowsFor (create_schedule st schedule_id name zones rooms entries days active)
        schedule_id =
      (rooms.map fun ref => ⟨schedule_id, (splitRoomRef ref).1, (splitRoomRef ref).2⟩) := by
  have hfilter : (days.filter fun d => (dayMapping d).isSome) = days :=
    List.filter_eq_self.mpr hdays
  refine ⟨?_, ?_, zoneRowsFor_create .., roomRowsFor_create ..⟩
  · rw [entryRowsFor_create, newEntryRows_length]
    have hcnt : (days.countP fun d => (dayMapping d).isSome) = days.length := by
      calc (days.countP fun d => (dayMapping d).isSome)
          = (days.filter fun d => (dayMapping d).isSome).length :=
            List.countP_eq_length_filter _ _
        _ = days.length := by rw [hfilter]
    rw [hcnt]
  · rw [entryRowsFor_create, newEntryRows_eq_filter, hfilter]

/-- C5 witness: two entries over the two recognised days mon and tue give
four stored entry rows. -/
theorem C5_cross_product_witness :
    (entryRowsFor (create_schedule Store.empty "s1" "S" ["z1"] []
        [⟨some "07:00", some (some (.num 20)), none⟩,
     ⟨some "21:00", some (some (.str "off")), none⟩]
        ["mon", "tue"] true) "s1").length = 2 * 2 := by
  have h := C5_cross_product Store.empty "s1" "S" ["z1"] []
    [⟨some "07:00", some (some (.num 20)), none⟩,
     ⟨some "21:00", some (some (.str "off")), none⟩]
    ["mon", "tue"] true (by decide)
  simpa using h.1

/-- C9 counterexample: two stored rows each violating one direction of
the claimed invariant.  (a) An entry supplied with action "off" and the
numeric temperature 18 is stored with action "off" and temperature 18,
not null — the code nullifies the temperature only when the temperature
itself is the string "off".  (b) An entry whose temperature key is
present but holds Python None is stored with a NULL temperature and
action "heat": .get does not replace a present None by its 20.0 default,
and str(None) is "None", not "off", so the nullify branch is not taken
and the supplied None reaches the temperature column while the action
defaults to "heat". -/
theorem C9_counterexample :
    entryRowsFor (create_schedule Store.empty "s1" "S" ["z1"] []
        [⟨some "06:00", some (some (.num 18)), some "off"⟩,
         ⟨some "07:00", some none, none⟩] ["mon"] true) "s1" =
      [⟨"s1", 0, 360, some (.num 18), "off"⟩, ⟨"s1", 0, 420, none, "heat"⟩] ∧
    ((⟨"s1", 0, 360, some (.num 18), "off"⟩ : EntryRow).action = "off" ∧
      (⟨"s1", 0, 360, some (.num 18), "off"⟩ : EntryRow).temperature ≠ none) ∧
    ((⟨"s1", 0, 420, none, "heat"⟩ : EntryRow).action = "heat" ∧
      (⟨"s1", 0, 420, none, "heat"⟩ : EntryRow).temperature = none) := by decide

/-- C9 (amended): create_schedule nullifies a temperature only for the
off marker: any supplied entry whose temperature equals the
case-insensitive string "off" is stored with action "off" and a null
temperature regardless of the action field supplied (and such a row is
indeed stored for every recognised day); every other entry is stored
with its temperature value unchanged — the 20.0 default applying only to
an absent key, so a present Python None is stored as NULL — and with the
supplied (or default "heat") action.  Neither direction of the claimed
invariant holds of the stored rows: action "off" can carry a present
temperature and action "heat" a null one. -/
theorem C9_nullify_only_for_off_marker (st : Store) (schedule_id name : String)
    (zones rooms : List String) (entries : List EntryInput) (days : List String)
    (active : Bool) :
    (∀ e ∈ entries, ∀ d ∈ days, ∀ dn : Nat, dayMapping d = some dn →
      mkEntryRow schedule_id dn e ∈
        entryRowsFor (create_schedule st schedule_id name zones rooms entries days active)
          schedule_id) ∧
    (∀ e : EntryInput, ∀ dn : Nat,
      pyTempIsOffStr (e.temperature.getD (some (.num 20))) = true →
        mkEntryRow schedule_id dn e =
          ⟨schedule_id, dn, timeStrToMinutes (e.time.getD "08:00"), none, "off"⟩) ∧
    (∀ e : EntryInput, ∀ dn : Nat,
      pyTempIsOffStr (e.temperature.getD (some (.num 20))) = false →
        mkEntryRow schedule_id dn e =
          ⟨schedule_id, dn, timeStrToMinutes (e.time.getD "08:00"),
            e.temperature.getD (some (.num 20)), e.action.getD "heat"⟩) := by
  refine ⟨?_, ?_, ?_⟩
  · intro e he d hd dn hdn
    rw [entryRowsFor_create]
    simp only [newEntryRows, List.mem_flatMap]
    refine ⟨d, hd, ?_⟩
    rw [hdn]
    exact List.mem_map_of_mem _ he
  · intro e dn hoff
    unfold mkEntryRow
    dsimp only
    rw [if_pos hoff]
  · intro e dn hoff
    unfold mkEntryRow
    dsimp only
    rw [if_neg (by simp [hoff])]

/-- C9 witness: the case-insensitive marker "OFF" as the temperature
forces action "off" and a null stored temperature even though the entry
supplied action "heat"; an entry holding Python None is stored with a
NULL temperature and action "heat". -/
theorem C9_nullify_only_for_off_marker_witness :
    (mkEntryRow "s1" 0 ⟨some "06:00", some (some (.str "OFF")), some "heat"⟩ =
      ⟨"s1", 0, timeStrToMinutes "06:00", none, "off"⟩) ∧
    (mkEntryRow "s1" 0 ⟨some "07:00", some none, none⟩ =
      ⟨"s1", 0, timeStrToMinutes "07:00", none, "heat"⟩) :=
  ⟨(C9_nullify_only_for_off_marker Store.empty "s1" "S" [] [] [] [] true).2.1
      ⟨some "06:00", some (some (.str "OFF")), some "heat"⟩ 0 (by decide),
    (C9_nullify_only_for_off_marker Store.empty "s1" "S" [] [] [] [] true).2.2
      ⟨some "07:00", some none, none⟩ 0 (by decide)⟩

/-- Store used by the C3 theorem: one active schedule with a zone
assignment, a room assignment and one entry. -/
def storeWithOneSchedule : Store :=
  create_schedule Store.empty "s1" "Morning" ["climate.z1"] ["Living|area1"]
    [⟨some "06:00", some (some (.num 20)), none⟩] ["mon"] true

/-- C3 (code bug): delete_schedule removes only the schedules row.  The
comment in the code claims the delete cascades to zones and entries via
the foreign-key constraints, but the connection never enables sqlite
foreign-key enforcement, so the assignment and entry rows survive as
orphans referencing a schedule id that no longer exists; the zone and
room queries no longer return the schedule only because their joins
require the schedules row. -/
theorem C3_delete_leaves_orphan_rows :
    (delete_schedule storeWithOneSchedule "s1").2 = true ∧
    (delete_schedule storeWithOneSchedule "s1").1.schedules = [] ∧
    (delete_schedule storeWithOneSchedule "s1").1.schedule_zones =
      [⟨"s1", "climate.z1"⟩] ∧
    (delete_schedule storeWithOneSchedule "s1").1.schedule_rooms =
      [⟨"s1", "Living", some "area1"⟩] ∧
    (delete_schedule storeWithOneSchedule "s1").1.schedule_entries =
      [⟨"s1", 0, 360, some (.num 20), "heat"⟩] ∧
    get_active_schedules_for_zone (delete_schedule storeWithOneSchedule "s1").1
      "climate.z1" = [] ∧
    get_active_schedules_for_room (delete_schedule storeWithOneSchedule "s1").1
      "Living" = [] ∧
    get_zones_with_schedules (delete_schedule storeWithOneSchedule "s1").1 = [] := by
  decide

lemma upsertSchedule_exists (rows : List ScheduleRow) (r : ScheduleRow) :
    ∃ x ∈ upsertSchedule rows r, (x.id == r.id) = true :=
  List.any_eq_true.mp (upsertSchedule_any rows r)

lemma get_schedule_isSome_iff_find (st : Store) (schedule_id : String) :
    (get_schedule st schedule_id).isSome =
      (st.schedules.find? fun s => s.id == schedule_id).isSome := by
  unfold get_schedule
  cases st.schedules.find? fun s => s.id == schedule_id <;> rfl

lemma get_schedule_isSome_create (st : Store) (schedule_id name : String)
    (zones rooms : List String) (entries : List EntryInput) (days : List String)
    (active : Bool) :
    (get_schedule (create_schedule st schedule_id name zones rooms entries days active)
      schedule_id).isSome = true := by
  rw [get_schedule_isSome_iff_find, List.find?_isSome]
  exact upsertSchedule_exists st.schedules ⟨schedule_id, name, active⟩

/-- C8: the legacy importer converts each period taking the time from
the time key, falling back to start and then to "08:00", the temperature
defaulting to 20.0, and the action "off" exactly when the temperature is
the case-insensitive string "off" (otherwise "heat"); running the
migration again on the same record changes nothing, and the concrete
record periods=[(start 07:00, temperature 20)] yields the single entry
(time 07:00, temperature 20, action heat). -/
theorem C8_legacy_importer :
    (∀ (st : Store) (legacy : LegacySchedule),
      migrate_single_schedule (migrate_single_schedule st legacy) legacy =
        migrate_single_schedule st legacy) ∧
    (∀ legacy : LegacySchedule,
      convert_legacy_periods legacy =
        (legacy.periods.getD (legacy.entries.getD [])).map fun period =>
          { time := some (period.time.getD (period.start.getD "08:00"))
            temperature := some (period.temperature.getD (some (.num 20)))
            action := some (if pyTempIsOffStr (period.temperature.getD (some (.num 20)))
              then "off" else "heat") }) ∧
    convert_legacy_periods
        ⟨some "L1", none, [], [], true,
          some [⟨none, some "07:00", some (some (.num 20))⟩], none⟩ =
      [⟨some "07:00", some (some (.num 20)), some "heat"⟩] := by
  refine ⟨?_, fun legacy => rfl, by decide⟩
  intro st legacy
  unfold migrate_single_schedule
  cases hid : legacy.id with
  | none => rfl
  | some schedule_id =>
    by_cases hemp : schedule_id = ""
    · simp [hemp]
    · by_cases hex : (get_schedule st schedule_id).isSome = true
      · simp [hemp, hex]
      · simp [hemp, hex, get_schedule_isSome_create]

/-- The qualifying condition of the resolver claim: the entry belongs to
a schedule directly assigned to the zone, that schedule is active, the
entry matches the weekday, and its minute is at or before the query
minute. -/
def qualifiesAt (st : Store) (zone_id : String) (day_of_week time_minutes : Nat)
    (e : EntryRow) : Prop :=
  e.day_of_week = day_of_week ∧ e.time_minutes ≤ time_minutes ∧
    (∃ z ∈ st.schedule_zones, z.schedule_id = e.schedule_id ∧ z.zone_id = zone_id) ∧
    (∃ s ∈ st.schedules, s.id = e.schedule_id ∧ s.active = true)

lemma pickLatest_cons_isSome (x : EntryRow × String) (xs : List (EntryRow × String)) :
    (pickLatest (x :: xs)).isSome = true := by
  simp only [pickLatest]
  cases pickLatest xs with
  | none => rfl
  | some y =>
    dsimp only
    split <;> rfl

lemma pickLatest_eq_none_iff (l : List (EntryRow × String)) :
    pickLatest l = none ↔ l = [] := by
  cases l with
  | nil => simp [pickLatest]
  | cons x xs =>
    constructor
    · intro h
      have := pickLatest_cons_isSome x xs
      rw [h] at this
      simp at this
    · intro h
      simp at h

lemma pickLatest_mem (l : List (EntryRow × String)) (y : EntryRow × String) :
    pickLatest l = some y → y ∈ l := by
  induction l generalizing y with
  | nil => intro h; simp [pickLatest] at h
  | cons a as ih =>
    intro h
    simp only [pickLatest] at h
    cases hp : pickLatest as with
    | none =>
      rw [hp] at h
      injection h with h
      subst h
      exact List.mem_cons_self a as
    | some z =>
      rw [hp] at h
      dsimp only at h
      by_cases hlt : a.1.time_minutes < z.1.time_minutes
      · rw [if_pos hlt] at h
        injection h with h
        subst h
        exact List.mem_cons_of_mem a (ih z hp)
      · rw [if_neg hlt] at h
        injection h with h
        subst h
        exact List.mem_cons_self a as

lemma pickLatest_max (l : List (EntryRow × String)) (y : EntryRow × String) :
    pickLatest l = some y → ∀ x ∈ l, x.1.time_minutes ≤ y.1.time_minutes := by
  induction l generalizing y with
  | nil => intro h; simp [pickLatest] at h
  | cons a as ih =>
    intro h x hx
    simp only [pickLatest] at h
    cases hp : pickLatest as with
    | none =>
      rw [hp] at h
      injection h with h
      subst h
      have hnil : as = [] := (pickLatest_eq_none_iff as).mp hp
      subst hnil
      have hxa : x = a := by simpa using hx
      subst hxa
      exact le_refl _
    | some z =>
      rw [hp] at h
      dsimp only at h
      by_cases hlt : a.1.time_minutes < z.1.time_minutes
      · rw [if_pos hlt] at h
        injection h with h
        subst h
        rcases List.mem_cons.mp hx with hxa | hx
        · subst hxa
          exact le_of_lt hlt
        · exact ih z hp x hx
      · rw [if_neg hlt] at h
        injection h with h
        subst h
        rcases List.mem_cons.mp hx with hxa | hx
        · subst hxa
          exact le_refl _
        · exact le_trans (ih z hp x hx) (Nat.not_lt.mp hlt)

lemma mem_qualifyingRows (st : Store) (zone_id : String) (day_of_week time_minutes : Nat)
    (hnd : (st.schedules.map ScheduleRow.id).Nodup) (p : EntryRow × String) :
    p ∈ qualifyingRows st zone_id day_of_week time_minutes ↔
      p.1 ∈ st.schedule_entries ∧
      qualifiesAt st zone_id day_of_week time_minutes p.1 ∧
      ∃ s ∈ st.schedules, s.id = p.1.schedule_id ∧ s.active = true ∧ s.name = p.2 := by
  unfold qualifyingRows
  rw [List.mem_filterMap]
  constructor
  · rintro ⟨e, he, hf⟩
    by_cases hcond : (e.day_of_week == day_of_week &&
        decide (e.time_minutes ≤ time_minutes) &&
        (st.schedule_zones.any fun z =>
          z.schedule_id == e.schedule_id && z.zone_id == zone_id)) = true
    · rw [if_pos hcond] at hf
      cases hfind : st.schedules.find? fun s => s.id == e.schedule_id with
      | none => rw [hfind] at hf; exact absurd hf (by simp)
      | some s =>
        rw [hfind] at hf
        dsimp only at hf
        by_cases hact : s.active = true
        · rw [if_pos hact] at hf
          injection hf with hf
          subst hf
          simp only [Bool.and_eq_true, beq_iff_eq, decide_eq_true_eq,
            List.any_eq_true] at hcond
          obtain ⟨⟨hday, htime⟩, z, hz, hzid⟩ := hcond
          have hsmem := List.mem_of_find?_eq_some hfind
          have hsid : s.id = e.schedule_id := by
            have := List.find?_some hfind
            simpa using this
          exact ⟨he, ⟨hday, htime, ⟨z, hz, hzid⟩, ⟨s, hsmem, hsid, hact⟩⟩,
            ⟨s, hsmem, hsid, hact, rfl⟩⟩
        · rw [if_neg hact] at hf
          exact absurd hf (by simp)
    · rw [if_neg hcond] at hf
      exact absurd hf (by simp)
  · rintro ⟨he, ⟨hday, htime, ⟨z, hz, hzid, hzone⟩, _⟩, s, hs, hsid, hact, hname⟩
    refine ⟨p.1, he, ?_⟩
    have hcond : (p.1.day_of_week == day_of_week &&
        decide (p.1.time_minutes ≤ time_minutes) &&
        (st.schedule_zones.any fun zr =>
          zr.schedule_id == p.1.schedule_id && zr.zone_id == zone_id)) = true := by
      simp only [Bool.and_eq_true, beq_iff_eq, decide_eq_true_eq, List.any_eq_true]
      exact ⟨⟨hday, htime⟩, z, hz, by simp [hzid, hzone]⟩
    rw [if_pos hcond]
    have hfind_some : (st.schedules.find? fun s' => s'.id == p.1.schedule_id).isSome = true := by
      rw [List.find?_isSome]
      exact ⟨s, hs, by simp [hsid]⟩
    cases hfind : st.schedules.find? fun s' => s'.id == p.1.schedule_id with
    | none => rw [hfind] at hfind_some; simp at hfind_some
    | some s' =>
      have hs'mem := List.mem_of_find?_eq_some hfind
      have hs'id : s'.id = p.1.schedule_id := by
        have := List.find?_some hfind
        simpa using this
      have hss' : s = s' := by
        have hinj := List.inj_on_of_nodup_map hnd
        exact hinj hs hs'mem (by rw [hsid, hs'id])
      subst hss'
      dsimp only
      rw [if_pos hact, hname]

/-- C2: for every zone, weekday and minute, the resolver returns the
fields of an entry of greatest time_minutes among the qualifying entries
(directly assigned to the zone, schedule active, weekday match, minute at
or before the query minute), the schedule name coming from the active
owning schedule; when no entry qualifies it returns none.  The hypothesis
is the schedules primary-key uniqueness the store guarantees. -/
theorem C2_resolver_step_function (st : Store) (zone_id : String)
    (day_of_week time_minutes : Nat)
    (hnd : (st.schedules.map ScheduleRow.id).Nodup) :
    (get_schedule_state_at_time st zone_id day_of_week time_minutes = none ↔
      ∀ e ∈ st.schedule_entries,
        ¬ qualifiesAt st zone_id day_of_week time_minutes e) ∧
    (∀ r, get_schedule_state_at_time st zone_id day_of_week time_minutes = some r →
      ∃ e ∈ st.schedule_entries,
        qualifiesAt st zone_id day_of_week time_minutes e ∧
        (∀ e' ∈ st.schedule_entries,
          qualifiesAt st zone_id day_of_week time_minutes e' →
            e'.time_minutes ≤ e.time_minutes) ∧
        r.temperature = e.temperature ∧ r.action = e.action ∧
        (∃ s ∈ st.schedules, s.id = e.schedule_id ∧ s.active = true ∧
          s.name = r.schedule_name)) := by
  constructor
  · constructor
    · intro h e he hq
      unfold get_schedule_state_at_time at h
      cases hp : pickLatest (qualifyingRows st zone_id day_of_week time_minutes) with
      | some p => rw [hp] at h; simp at h
      | none =>
        have hnil := (pickLatest_eq_none_iff _).mp hp
        obtain ⟨s, hs, hsid, hact⟩ := hq.2.2.2
        have hmem : (e, s.name) ∈ qualifyingRows st zone_id day_of_week time_minutes := by
          rw [mem_qualifyingRows st zone_id day_of_week time_minutes hnd]
          exact ⟨he, hq, s, hs, hsid, hact, rfl⟩
        rw [hnil] at hmem
        simp at hmem
    · intro h
      unfold get_schedule_state_at_time
      cases hp : pickLatest (qualifyingRows st zone_id day_of_week time_minutes) with
      | none => rfl
      | some p =>
        exfalso
        have hmem := pickLatest_mem _ _ hp
        rw [mem_qualifyingRows st zone_id day_of_week time_minutes hnd] at hmem
        exact h p.1 hmem.1 hmem.2.1
  · intro r hr
    unfold get_schedule_state_at_time at hr
    cases hp : pickLatest (qualifyingRows st zone_id day_of_week time_minutes) with
    | none => rw [hp] at hr; simp at hr
    | some p =>
      rw [hp] at hr
      injection hr with hr
      subst hr
      have hmem := pickLatest_mem _ _ hp
      rw [mem_qualifyingRows st zone_id day_of_week time_minutes hnd] at hmem
      obtain ⟨he, hq, s, hs, hsid, hact, hname⟩ := hmem
      refine ⟨p.1, he, hq, ?_, rfl, rfl, s, hs, hsid, hact, hname⟩
      intro e' he' hq'
      obtain ⟨s', hs', hs'id, hact'⟩ := hq'.2.2.2
      have hmem' : (e', s'.name) ∈ qualifyingRows st zone_id day_of_week time_minutes := by
        rw [mem_qualifyingRows st zone_id day_of_week time_minutes hnd]
        exact ⟨he', hq', s', hs', hs'id, hact', rfl⟩
      exact pickLatest_max _ _ hp (e', s'.name) hmem'

/-- Store of the C2 witness: the spec example (entries 06:00 at 20, 08:00
at 16, 17:00 at 21 degrees on Monday). -/
def storeSpecExample : Store :=
  create_schedule Store.empty "s1" "Morning" ["climate.z1"] []
    [⟨some "06:00", some (some (.num 20)), none⟩,
     ⟨some "08:00", some (some (.num 16)), none⟩,
     ⟨some "17:00", some (some (.num 21)), none⟩] ["mon"] true

/-- C2 witness: the resolver theorem applied to the spec example store at
Monday 07:30, together with directly computed resolver values at 07:30,
05:00 and 23:00. -/
theorem C2_resolver_step_function_witness :
    (get_schedule_state_at_time storeSpecExample "climate.z1" 0 450 =
      some ⟨some (.num 20), "heat", "Morning"⟩) ∧
    (get_schedule_state_at_time storeSpecExample "climate.z1" 0 300 = none) ∧
    (get_schedule_state_at_time storeSpecExample "climate.z1" 0 1380 =
      some ⟨some (.num 21), "heat", "Morning"⟩) ∧
    (∀ r, get_schedule_state_at_time storeSpecExample "climate.z1" 0 450 = some r →
      ∃ e ∈ storeSpecExample.schedule_entries,
        qualifiesAt storeSpecExample "climate.z1" 0 450 e ∧
        (∀ e' ∈ storeSpecExample.schedule_entries,
          qualifiesAt storeSpecExample "climate.z1" 0 450 e' →
            e'.time_minutes ≤ e.time_minutes) ∧
        r.temperature = e.temperature ∧ r.action = e.action ∧
        (∃ s ∈ storeSpecExample.schedules, s.id = e.schedule_id ∧ s.active = true ∧
          s.name = r.schedule_name)) :=
  ⟨by decide, by decide, by decide,
    (C2_resolver_step_function storeSpecExample "climate.z1" 0 450 (by decide)).2⟩

lemma sortDedup_perm (xs : List String) : (sortDedup xs).Perm xs.dedup :=
  List.perm_insertionSort _ _

lemma sortDedup_nodup (xs : List String) : (sortDedup xs).Nodup :=
  ((sortDedup_perm xs).nodup_iff).mpr (List.nodup_dedup xs)

lemma mem_sortDedup (xs : List String) (a : String) : a ∈ sortDedup xs ↔ a ∈ xs :=
  ((sortDedup_perm xs).mem_iff).trans (List.mem_dedup)

lemma trigger_at_times (away : AwayHomeConfig) (zone_id zone_name : String)
    (zone_schedules : List SchedDict) :
    ((buildConsolidatedAutomationConfig away zone_id zone_name zone_schedules).trigger).map
      TimeTrigger.at_time = sortDedup (collectTriggerTimes zone_schedules) := by
  show ((sortDedup (collectTriggerTimes zone_schedules)).map fun time_str =>
      TimeTrigger.mk "time" time_str ("time_" ++ replaceColonUnderscore time_str)).map
      TimeTrigger.at_time = sortDedup (collectTriggerTimes zone_schedules)
  rw [List.map_map]
  exact List.map_id _

/-- C4: the compiled automation has exactly one time trigger per distinct
"HH:MM" instant occurring in any entry of any governing schedule: the
trigger times are pairwise distinct, a time occurs as a trigger exactly
when some entry of some governing schedule carries it, and the trigger
list is the sorted deduplication of all entry times; in particular two
schedules sharing the instant "08:00" compile to a single "08:00"
trigger. -/
theorem C4_one_trigger_per_distinct_time (away : AwayHomeConfig)
    (zone_id zone_name : String) (zone_schedules : List SchedDict) :
    (((buildConsolidatedAutomationConfig away zone_id zone_name zone_schedules).trigger).map
      TimeTrigger.at_time).Nodup ∧
    (∀ t : String,
      (t ∈ ((buildConsolidatedAutomationConfig away zone_id zone_name
          zone_schedules).trigger).map TimeTrigger.at_time ↔
        ∃ s ∈ zone_schedules, ∃ e ∈ effEntries s, effTime e = t)) ∧
    (buildConsolidatedAutomationConfig away zone_id zone_name zone_schedules).trigger =
      ((sortDedup (collectTriggerTimes zone_schedules)).map fun time_str =>
        TimeTrigger.mk "time" time_str ("time_" ++ replaceColonUnderscore time_str)) ∧
    (buildConsolidatedAutomationConfig ⟨false, none, "home"⟩ "climate.z1" "Zone"
        [⟨some "a", some "A", some true, ["mon"],
          some [⟨some "08:00", none, some (.num 20)⟩], none⟩,
         ⟨some "b", some "B", some true, ["tue"],
          some [⟨some "08:00", none, some (.num 22)⟩], none⟩]).trigger =
      [⟨"time", "08:00", "time_08_00"⟩] := by
  refine ⟨?_, ?_, rfl, by decide⟩
  · rw [trigger_at_times]
    exact sortDedup_nodup _
  · intro t
    rw [trigger_at_times, mem_sortDedup]
    simp [collectTriggerTimes]

/-- Schedule used by the C1 counterexample: Monday entries 07:00 at 20
degrees and 08:00 at 16 degrees. -/
def schedMorningA : SchedDict :=
  ⟨some "s1", some "Morning", some true, ["mon"],
    some [⟨some "07:00", none, some (.num 20)⟩, ⟨some "08:00", none, some (.num 16)⟩],
    none⟩

/-- Identical to schedMorningA except that the 08:00 entry asks for 21
degrees instead of 16. -/
def schedMorningB : SchedDict :=
  ⟨some "s1", some "Morning", some true, ["mon"],
    some [⟨some "07:00", none, some (.num 20)⟩, ⟨some "08:00", none, some (.num 21)⟩],
    none⟩

/-- C1 counterexample: two governing-schedule sets whose applicable entry
at Monday 08:00 differs (16 versus 21 degrees) compile to the very same
automation artifact, so the artifact cannot determine the applicable
entry at execution time; indeed the action body binds target_state to a
constant dictionary template built at compile time from the first entry
of the first active schedule (it mentions only 20.0/heat and contains no
day or time evaluation). -/
theorem C1_counterexample :
    buildConsolidatedAutomationConfig ⟨false, none, "home"⟩ "climate.z1" "Zone 1"
        [schedMorningA] =
      buildConsolidatedAutomationConfig ⟨false, none, "home"⟩ "climate.z1" "Zone 1"
        [schedMorningB] ∧
    schedMorningA ≠ schedMorningB ∧
    (effEntries schedMorningA).map (fun e => e.temperature) ≠
      (effEntries schedMorningB).map (fun e => e.temperature) ∧
    buildTargetStateTemplateSafe [schedMorningA] =
      "\x7b\x7b \x7b\x27temperature\x27: 20.0, \x27action\x27: \x27heat\x27, \x27schedule_name\x27: \x27Morning\x27\x7d \x7d\x7d" := by
  refine ⟨rfl, by decide, by decide, rfl⟩

/-- The constant dictionary template the safe builder produces from the
first entry of a schedule (the loop body of
_build_target_state_template_safe). -/
def firstEntryTemplate (schedule : SchedDict) : String :=
  match effEntries schedule with
  | [] => defaultTargetStateTemplate
  | first_entry :: _ =>
    let temperature := first_entry.temperature.getD (.num 20)
    let action := if temperature.isOffStr then "off" else "heat"
    let schedule_name := schedule.name.getD "Unnamed Schedule"
    let temp_value :=
      if temperature.isOffStr then "16" else renderTempValueFloat temperature
    "\x7b\x7b \x7b\x27temperature\x27: " ++ temp_value ++ ", \x27action\x27: \x27" ++
      action ++ "\x27, \x27schedule_name\x27: \x27" ++ schedule_name ++ "\x27\x7d \x7d\x7d"

lemma targetStateLoop_find (zone_schedules : List SchedDict) :
    targetStateLoop zone_schedules =
      (match zone_schedules.find?
          (fun s => s.active.getD true && !(effEntries s).isEmpty) with
        | none => defaultTargetStateTemplate
        | some s => firstEntryTemplate s) := by
  induction zone_schedules with
  | nil => rfl
  | cons s rest ih =>
    by_cases hact : s.active.getD true = true
    · cases hent : effEntries s with
      | nil =>
        have hpred : (s.active.getD true && !(effEntries s).isEmpty) = false := by
          rw [hent, hact]
          rfl
        simp only [List.find?, hpred]
        rw [← ih]
        simp only [targetStateLoop]
        rw [hact, hent]
        simp
      | cons first_entry tail =>
        have hpred : (s.active.getD true && !(effEntries s).isEmpty) = true := by
          rw [hent, hact]
          rfl
        simp only [List.find?, hpred]
        simp only [targetStateLoop, firstEntryTemplate]
        rw [hact, hent]
        simp
    · have hact' : s.active.getD true = false := by
        cases h : s.active.getD true
        · rfl
        · exact absurd h hact
      have hpred : (s.active.getD true && !(effEntries s).isEmpty) = false := by
        rw [hact']
        rfl
      simp only [List.find?, hpred]
      rw [← ih]
      simp only [targetStateLoop]
      rw [hact']
      simp

/-- C1 (amended): for a zone with a non-empty governing schedule set, the
artifact condition carries the day/time evaluation template, but the
action body binds target_state to a template string fixed at compile
time — the constant dictionary built from the first entry of the first
active schedule with entries (default template when there is none), not
an expression selecting the applicable entry across all schedules at
execution time — and then dispatches on it: an off branch (set hvac off,
then a logbook audit call) and a default branch (set temperature, switch
to heat, then a logbook audit call). -/
theorem C1_fixed_compile_time_template (away : AwayHomeConfig)
    (zone_id zone_name : String) (zone_schedules : List SchedDict)
    (h : zone_schedules ≠ []) :
    (buildConsolidatedAutomationConfig away zone_id zone_name
        zone_schedules).target_state_template =
      buildTargetStateTemplateSafe zone_schedules ∧
    buildTargetStateTemplateSafe zone_schedules =
      (match zone_schedules.find?
          (fun s => s.active.getD true && !(effEntries s).isEmpty) with
        | none => defaultTargetStateTemplate
        | some s => firstEntryTemplate s) ∧
    (buildConsolidatedAutomationConfig away zone_id zone_name
        zone_schedules).condition =
      ((match away.entity_id with
        | some e =>
          if away.enabled && e != "" then [Condition.state e away.home_state] else []
        | none => []) ++
        [Condition.template (buildScheduleEvaluationTemplate zone_schedules)]) ∧
    (buildConsolidatedAutomationConfig away zone_id zone_name
        zone_schedules).action_choose =
      { choose := [
          { conditions :=
              [Condition.template "\x7b\x7b target_state.action == \x27off\x27 \x7d\x7d"]
            sequence := [
              { service := "climate.set_hvac_mode"
                target_entity := some zone_id
                data := [("hvac_mode", "off")] },
              { service := "logbook.log"
                target_entity := none
                data := [("name", "Tado Smart Scheduler"),
                         ("message", "Turned off heating in " ++ zone_name ++
                           " (Schedule: \x7b\x7b target_state.schedule_name \x7d\x7d)")] }] }]
        default := [
          { service := "climate.set_temperature"
            target_entity := some zone_id
            data := [("temperature", "\x7b\x7b target_state.temperature \x7d\x7d")] },
          { service := "climate.set_hvac_mode"
            target_entity := some zone_id
            data := [("hvac_mode", "heat")] },
          { service := "logbook.log"
            target_entity := none
            data := [("name", "Tado Smart Scheduler"),
                     ("message", "Set " ++ zone_name ++
                       " to \x7b\x7b target_state.temperature \x7d\x7dÂ°C (Schedule: \x7b\x7b target_state.schedule_name \x7d\x7d)")] }] } :=
  ⟨rfl, targetStateLoop_find zone_schedules, rfl, rfl⟩

/-- C1 witness: the amended theorem applied to the singleton governing
set of schedMorningA. -/
theorem C1_fixed_compile_time_template_witness :
    buildTargetStateTemplateSafe [schedMorningA] =
      (match [schedMorningA].find?
          (fun s => s.active.getD true && !(effEntries s).isEmpty) with
        | none => defaultTargetStateTemplate
        | some s => firstEntryTemplate s) :=
  (C1_fixed_compile_time_template ⟨false, none, "home"⟩ "climate.z1" "Zone 1"
    [schedMorningA] (by decide)).2.1

/-- The valid "HH:MM" strings of the round-trip claim: two zero-padded
digits, a colon, two zero-padded digits, hour at most 23, minute at most
59. -/
def isValidTimeStr (s : String) : Bool :=
  match s.data with
  | [h1, h2, c, m1, m2] =>
    c == ':' && h1.isDigit && h2.isDigit && m1.isDigit && m2.isDigit &&
      decide ((h1.toNat - 48) * 10 + (h2.toNat - 48) < 24) &&
      decide ((m1.toNat - 48) * 10 + (m2.toNat - 48) < 60)
  | _ => false

lemma isDigit_toNat_bounds (c : Char) (h : c.isDigit = true) :
    48 ≤ c.toNat ∧ c.toNat ≤ 57 := by
  simp [Char.isDigit] at h
  exact h

lemma isDigit_ne_colon (c : Char) (h : c.isDigit = true) : c ≠ ':' := by
  intro heq
  rw [heq] at h
  exact absurd h (by decide)

lemma splitOnChar_hhmm (h1 h2 m1 m2 : Char) (hh1 : h1 ≠ ':') (hh2 : h2 ≠ ':')
    (hm1 : m1 ≠ ':') (hm2 : m2 ≠ ':') :
    splitOnChar ':' [h1, h2, ':', m1, m2] = [[h1, h2], [m1, m2]] := by
  simp [splitOnChar, hh1, hh2, hm1, hm2]

lemma parseDigits?_two (a b : Char) (ha : a.isDigit = true) (hb : b.isDigit = true) :
    parseDigits? [a, b] = some ((a.toNat - 48) * 10 + (b.toNat - 48)) := by
  have ha' : ('0' ≤ a ∧ a ≤ '9') := by
    obtain ⟨h1, h2⟩ := isDigit_toNat_bounds a ha
    constructor <;> · rw [Char.le_def]; simpa [Char.toNat] using (by assumption)
  have hb' : ('0' ≤ b ∧ b ≤ '9') := by
    obtain ⟨h1, h2⟩ := isDigit_toNat_bounds b hb
    constructor <;> · rw [Char.le_def]; simpa [Char.toNat] using (by assumption)
  simp [parseDigits?, List.foldl, ha', hb']

lemma twoPad_digits : ∀ n < 100,
    twoPad n = ⟨[Char.ofNat (48 + n / 10), Char.ofNat (48 + n % 10)]⟩ := by
  decide

lemma minutesToTimeStr_split (H M : Nat) (hM : M < 60) :
    minutesToTimeStr (H * 60 + M) = twoPad H ++ ":" ++ twoPad M := by
  unfold minutesToTimeStr
  have hdiv : (H * 60 + M) / 60 = H := by omega
  have hmod : (H * 60 + M) % 60 = M := by omega
  rw [hdiv, hmod]

lemma string_mk_append (l1 l2 : List Char) :
    (⟨l1⟩ : String) ++ ":" ++ (⟨l2⟩ : String) = ⟨l1 ++ ':' :: l2⟩ := by
  show String.mk ((l1 ++ [':']) ++ l2) = String.mk (l1 ++ ':' :: l2)
  rw [List.append_assoc]
  rfl

lemma char_ofNat_digit (c : Char) (h : c.isDigit = true) :
    Char.ofNat (48 + (c.toNat - 48)) = c := by
  obtain ⟨h1, _⟩ := isDigit_toNat_bounds c h
  have : 48 + (c.toNat - 48) = c.toNat := by omega
  rw [this, Char.ofNat_toNat]

/-- C7: for every valid "HH:MM" string, converting it to minutes since
midnight with _time_str_to_minutes and back with _minutes_to_time_str
yields the original string. -/
theorem C7_time_codec_roundtrip (s : String) (h : isValidTimeStr s = true) :
    minutesToTimeStr (timeStrToMinutes s) = s := by
  obtain ⟨data⟩ := s
  rcases data with _ | ⟨a, data⟩
  · simp [isValidTimeStr] at h
  rcases data with _ | ⟨b, data⟩
  · simp [isValidTimeStr] at h
  rcases data with _ | ⟨c, data⟩
  · simp [isValidTimeStr] at h
  rcases data with _ | ⟨d, data⟩
  · simp [isValidTimeStr] at h
  rcases data with _ | ⟨e, data⟩
  · simp [isValidTimeStr] at h
  rcases data with _ | ⟨f, rest⟩
  case cons => simp [isValidTimeStr] at h
  simp only [isValidTimeStr, Bool.and_eq_true, beq_iff_eq, decide_eq_true_eq] at h
  obtain ⟨⟨⟨⟨⟨⟨hc, ha⟩, hb⟩, hd⟩, he⟩, hH⟩, hM⟩ := h
  subst hc
  have hbb := (isDigit_toNat_bounds b hb).2
  have hee := (isDigit_toNat_bounds e he).2
  have haa := (isDigit_toNat_bounds a ha).1
  have hdd := (isDigit_toNat_bounds d hd).1
  unfold timeStrToMinutes
  show minutesToTimeStr
      (match (splitOnChar ':' [a, b, ':', d, e]).map parseDigits? with
        | [some hours, some minutes] => hours * 60 + minutes
        | _ => 0) = _
  rw [splitOnChar_hhmm a b d e (isDigit_ne_colon a ha) (isDigit_ne_colon b hb)
    (isDigit_ne_colon d hd) (isDigit_ne_colon e he)]
  rw [List.map_cons, List.map_cons, List.map_nil,
    parseDigits?_two a b ha hb, parseDigits?_two d e hd he]
  show minutesToTimeStr
      (((a.toNat - 48) * 10 + (b.toNat - 48)) * 60 +
        ((d.toNat - 48) * 10 + (e.toNat - 48))) = _
  rw [minutesToTimeStr_split _ _ hM]
  rw [twoPad_digits _ (by omega), twoPad_digits _ (by omega)]
  rw [string_mk_append]
  have hq1 : ((a.toNat - 48) * 10 + (b.toNat - 48)) / 10 = a.toNat - 48 := by omega
  have hq2 : ((a.toNat - 48) * 10 + (b.toNat - 48)) % 10 = b.toNat - 48 := by omega
  have hq3 : ((d.toNat - 48) * 10 + (e.toNat - 48)) / 10 = d.toNat - 48 := by omega
  have hq4 : ((d.toNat - 48) * 10 + (e.toNat - 48)) % 10 = e.toNat - 48 := by omega
  rw [hq1, hq2, hq3, hq4, char_ofNat_digit a ha, char_ofNat_digit b hb,
    char_ofNat_digit d hd, char_ofNat_digit e he]
  rfl

/-- C7 witness: the round trip on the concrete valid time "08:05". -/
theorem C7_time_codec_roundtrip_witness :
    isValidTimeStr "08:05" = true ∧ minutesToTimeStr (timeStrToMinutes "08:05") = "08:05" :=
  ⟨by decide, C7_time_codec_roundtrip "08:05" (by decide)⟩

end TadoLocal
